import Mathlib

/-!
Shallow embedding of `yoga/style/Style.h` (facebook::yoga::Style) and the
pieces of its interface that the verified properties need.  Machine integers
are modelled as `Nat` with explicit masking to 32 bits where the C++ code
works on a `uint32_t`; float payloads are modelled by their 32-bit patterns
(a `Nat`), since the code compares them bit-for-bit and never does float
arithmetic at this layer.
-/

namespace Yoga

/-- Modelled from the spec: `BitUtils.h` is not under `src/`.  Fueled form
of `log2ceilFn(n) = n < 1 ? 0 : 1 + log2ceilFn(n / 2)`; the fuel argument
only makes the recursion structural, the first argument never runs out when
it starts at `n` itself. -/
def log2ceilAux : Nat → Nat → Nat
  | 0, _ => 0
  | fuel + 1, n => if n < 1 then 0 else 1 + log2ceilAux fuel (n / 2)

/-- Number of bits needed to represent `n` (0 for 0). -/
def log2ceilFn (n : Nat) : Nat := log2ceilAux n n

/-- Modelled from the spec: width of the minimal bit field able to represent
every ordinal of an enumeration with `c` members ("the minimum bits needed
to represent its enumeration's ordinal range"), i.e. `log2ceilFn(c - 1)`. -/
def bitWidthFn (c : Nat) : Nat := log2ceilFn (c - 1)

/-- Modelled from the spec: contiguous bit mask of `w` ones starting at bit
`off` of the packed word. -/
def maskFn (w off : Nat) : Nat := ((1 <<< w) - 1) <<< off

/-- All 32 bits of the `uint32_t` flags word. -/
def wordMask : Nat := 2 ^ 32 - 1

/-- Modelled from the spec: Decode — right-shift by the offset and mask to
the field width (`detail::getEnumData`, `BitUtils.h` not under `src/`). -/
def getEnumData (flags off w : Nat) : Nat := (flags &&& maskFn w off) >>> off

/-- Modelled from the spec: Encode — clear the target bit range, then OR in
the value shifted to the offset (`detail::setEnumData`, `BitUtils.h` not
under `src/`).  The store is a `uint32_t`, so bits beyond 31 are dropped. -/
def setEnumData (flags off w v : Nat) : Nat :=
  (flags &&& (wordMask ^^^ maskFn w off)) ||| ((v <<< off) &&& maskFn w off)

/-- Modelled from the spec: cardinality of `YGDirection` (Inherit, LTR, RTL);
`YGEnums.h` is not under `src/`. -/
def countDirection : Nat := 3

/-- Modelled from the spec: cardinality of `YGFlexDirection` (Column,
ColumnReverse, Row, RowReverse). -/
def countFlexDirection : Nat := 4

/-- Modelled from the spec: cardinality of `YGJustify` (FlexStart, Center,
FlexEnd, SpaceBetween, SpaceAround, SpaceEvenly). -/
def countJustify : Nat := 6

/-- Modelled from the spec: cardinality of `YGAlign` (Auto, FlexStart,
Center, FlexEnd, Stretch, Baseline, SpaceBetween, SpaceAround). -/
def countAlign : Nat := 8

/-- Modelled from the spec: cardinality of `YGPositionType` (Static,
Relative, Absolute). -/
def countPositionType : Nat := 3

/-- Modelled from the spec: cardinality of `YGWrap` (NoWrap, Wrap,
WrapReverse). -/
def countWrap : Nat := 3

/-- Modelled from the spec: cardinality of `YGOverflow` (Visible, Hidden,
Scroll). -/
def countOverflow : Nat := 3

/-- Modelled from the spec: cardinality of `YGDisplay` (Flex, None). -/
def countDisplay : Nat := 2

/-- Modelled from the spec: ordinal of `YGAlignFlexStart` inside `YGAlign`. -/
def YGAlignFlexStart : Nat := 1

/-- Modelled from the spec: ordinal of `YGAlignStretch` inside `YGAlign`. -/
def YGAlignStretch : Nat := 4

/-- Offset of the direction field (`Style::directionOffset`). -/
def directionOffset : Nat := 0

/-- Offset of the flex-direction field (`Style::flexdirectionOffset`). -/
def flexdirectionOffset : Nat := directionOffset + bitWidthFn countDirection

/-- Offset of the justify-content field (`Style::justifyContentOffset`). -/
def justifyContentOffset : Nat := flexdirectionOffset + bitWidthFn countFlexDirection

/-- Offset of the align-content field (`Style::alignContentOffset`). -/
def alignContentOffset : Nat := justifyContentOffset + bitWidthFn countJustify

/-- Offset of the align-items field (`Style::alignItemsOffset`). -/
def alignItemsOffset : Nat := alignContentOffset + bitWidthFn countAlign

/-- Offset of the align-self field (`Style::alignSelfOffset`). -/
def alignSelfOffset : Nat := alignItemsOffset + bitWidthFn countAlign

/-- Offset of the position-type field (`Style::positionTypeOffset`). -/
def positionTypeOffset : Nat := alignSelfOffset + bitWidthFn countAlign

/-- Offset of the flex-wrap field (`Style::flexWrapOffset`). -/
def flexWrapOffset : Nat := positionTypeOffset + bitWidthFn countPositionType

/-- Offset of the overflow field (`Style::overflowOffset`). -/
def overflowOffset : Nat := flexWrapOffset + bitWidthFn countWrap

/-- Offset of the display field (`Style::displayOffset`). -/
def displayOffset : Nat := overflowOffset + bitWidthFn countOverflow

/-- Units of a length value (`YGUnit`, declared outside `src/`). -/
inductive YGUnit
  | undefined
  | point
  | percent
  | auto
deriving DecidableEq, Repr

/-- Modelled from the spec: `CompactValue.h` is not under `src/`.  A tagged
scalar representing a length as Undefined, Auto, Point or Percent; the
Point/Percent payload is the 32-bit pattern of the stored number, so equality
of payloads is bit-level identity. -/
inductive CompactValue
  | ofUndefined
  | ofAuto
  | ofPoints (bits : Nat)
  | ofPercent (bits : Nat)
deriving DecidableEq, Repr

/-- Bit pattern of the quiet NaN used as `YGUndefined`, the "not applicable"
payload reported for payload-less kinds. -/
def undefinedPayload : Nat := 0x7FC00000

/-- Kind of a `CompactValue` (its `unit()`). -/
def CompactValue.unit : CompactValue → YGUnit
  | .ofUndefined => .undefined
  | .ofAuto => .auto
  | .ofPoints _ => .point
  | .ofPercent _ => .percent

/-- Numeric payload of a `CompactValue` (its `value()`); the payload-less
kinds deterministically report the `YGUndefined` sentinel. -/
def CompactValue.value : CompactValue → Nat
  | .ofUndefined => undefinedPayload
  | .ofAuto => undefinedPayload
  | .ofPoints b => b
  | .ofPercent b => b

/-- Boundary value representation: a kind plus a number (`YGValue`), as
exchanged with the layout algorithm.  Declared outside `src/`. -/
structure YGValue where
  value : Nat
  unit : YGUnit
deriving DecidableEq, Repr

/-- Conversion of a `CompactValue` to the boundary representation
(`CompactValue::operator YGValue`); payload-less kinds carry the
`YGUndefined` sentinel number. -/
def CompactValue.toYGValue : CompactValue → YGValue
  | .ofUndefined => ⟨undefinedPayload, .undefined⟩
  | .ofAuto => ⟨undefinedPayload, .auto⟩
  | .ofPoints b => ⟨b, .point⟩
  | .ofPercent b => ⟨b, .percent⟩

/-- Conversion from the boundary representation back into a `CompactValue`
(the `CompactValue (const YGValue&)` constructor): dispatch on the kind. -/
def CompactValue.fromYGValue (v : YGValue) : CompactValue :=
  match v.unit with
  | .undefined => .ofUndefined
  | .auto => .ofAuto
  | .point => .ofPoints v.value
  | .percent => .ofPercent v.value

/-- Modelled from the spec: `CompactValue` equality compares the kind first,
then the payload by bit-level identity of its 32-bit pattern. -/
def CompactValue.beq : CompactValue → CompactValue → Bool
  | .ofUndefined, .ofUndefined => true
  | .ofAuto, .ofAuto => true
  | .ofPoints a, .ofPoints b => a == b
  | .ofPercent a, .ofPercent b => a == b
  | _, _ => false

/-- Modelled from the spec: `YGFloatOptional.h` is not under `src/`.  An
optional scalar float (payload = 32-bit pattern); `none` is the "absent"
indicator a never-written scalar reads back as. -/
abbrev YGFloatOptional := Option Nat

/-- Edge-indexed container type (`Style::Edges`, 9 slots: Left, Top, Right,
Bottom, Start, End, Horizontal, Vertical, All).  `detail::Values` is not
under `src/`; modelled from the spec as a fixed-length sequence. -/
abbrev Edges := Fin 9 → CompactValue

/-- Gutter-indexed container type (`Style::Gutters`, 3 slots: Column, Row,
All). -/
abbrev Gutters := Fin 3 → CompactValue

/-- Dimension-indexed container type (`Style::Dimensions`, 2 slots: Width,
Height). -/
abbrev Dimensions := Fin 2 → CompactValue

/-- Ordinal of `YGEdgeLeft`. -/
def YGEdgeLeft : Fin 9 := 0

/-- Ordinal of `YGEdgeTop`. -/
def YGEdgeTop : Fin 9 := 1

/-- Ordinal of `YGEdgeAll`. -/
def YGEdgeAll : Fin 9 := 8

/-- Ordinal of `YGDimensionWidth`. -/
def YGDimensionWidth : Fin 2 := 0

/-- Ordinal of `YGDimensionHeight`. -/
def YGDimensionHeight : Fin 2 := 1

/-- The `Style` aggregate: the packed enum word (`flags`), the optional
scalars, `flexBasis`, and the indexed containers, exactly the member list of
`facebook::yoga::Style`. -/
structure Style where
  flags : Nat
  flex_ : YGFloatOptional
  flexGrow_ : YGFloatOptional
  flexShrink_ : YGFloatOptional
  flexBasis_ : CompactValue
  margin_ : Edges
  position_ : Edges
  padding_ : Edges
  border_ : Edges
  gap_ : Gutters
  dimensions_ : Dimensions
  minDimensions_ : Dimensions
  maxDimensions_ : Dimensions
  aspectRatio_ : YGFloatOptional

/-- Const read accessor `Style::direction() const`, returning the decoded
ordinal. -/
def Style.direction (s : Style) : Nat :=
  getEnumData s.flags directionOffset (bitWidthFn countDirection)

/-- Write through `Style::direction()`'s `BitfieldRef` assignment. -/
def Style.setDirection (s : Style) (v : Nat) : Style :=
  { s with flags := setEnumData s.flags directionOffset (bitWidthFn countDirection) v }

/-- Const read accessor `Style::flexDirection() const`. -/
def Style.flexDirection (s : Style) : Nat :=
  getEnumData s.flags flexdirectionOffset (bitWidthFn countFlexDirection)

/-- Write through `Style::flexDirection()`'s `BitfieldRef` assignment. -/
def Style.setFlexDirection (s : Style) (v : Nat) : Style :=
  { s with flags := setEnumData s.flags flexdirectionOffset (bitWidthFn countFlexDirection) v }

/-- Const read accessor `Style::justifyContent() const`. -/
def Style.justifyContent (s : Style) : Nat :=
  getEnumData s.flags justifyContentOffset (bitWidthFn countJustify)

/-- Write through `Style::justifyContent()`'s `BitfieldRef` assignment. -/
def Style.setJustifyContent (s : Style) (v : Nat) : Style :=
  { s with flags := setEnumData s.flags justifyContentOffset (bitWidthFn countJustify) v }

/-- Const read accessor `Style::alignContent() const`. -/
def Style.alignContent (s : Style) : Nat :=
  getEnumData s.flags alignContentOffset (bitWidthFn countAlign)

/-- Write through `Style::alignContent()`'s `BitfieldRef` assignment. -/
def Style.setAlignContent (s : Style) (v : Nat) : Style :=
  { s with flags := setEnumData s.flags alignContentOffset (bitWidthFn countAlign) v }

/-- Const read accessor `Style::alignItems() const`. -/
def Style.alignItems (s : Style) : Nat :=
  getEnumData s.flags alignItemsOffset (bitWidthFn countAlign)

/-- Write through `Style::alignItems()`'s `BitfieldRef` assignment. -/
def Style.setAlignItems (s : Style) (v : Nat) : Style :=
  { s with flags := setEnumData s.flags alignItemsOffset (bitWidthFn countAlign) v }

/-- Const read accessor `Style::alignSelf() const`. -/
def Style.alignSelf (s : Style) : Nat :=
  getEnumData s.flags alignSelfOffset (bitWidthFn countAlign)

/-- Write through `Style::alignSelf()`'s `BitfieldRef` assignment. -/
def Style.setAlignSelf (s : Style) (v : Nat) : Style :=
  { s with flags := setEnumData s.flags alignSelfOffset (bitWidthFn countAlign) v }

/-- Const read accessor `Style::positionType() const`. -/
def Style.positionType (s : Style) : Nat :=
  getEnumData s.flags positionTypeOffset (bitWidthFn countPositionType)

/-- Write through `Style::positionType()`'s `BitfieldRef` assignment. -/
def Style.setPositionType (s : Style) (v : Nat) : Style :=
  { s with flags := setEnumData s.flags positionTypeOffset (bitWidthFn countPositionType) v }

/-- Const read accessor `Style::flexWrap() const`. -/
def Style.flexWrap (s : Style) : Nat :=
  getEnumData s.flags flexWrapOffset (bitWidthFn countWrap)

/-- Write through `Style::flexWrap()`'s `BitfieldRef` assignment. -/
def Style.setFlexWrap (s : Style) (v : Nat) : Style :=
  { s with flags := setEnumData s.flags flexWrapOffset (bitWidthFn countWrap) v }

/-- Const read accessor `Style::overflow() const`. -/
def Style.overflow (s : Style) : Nat :=
  getEnumData s.flags overflowOffset (bitWidthFn countOverflow)

/-- Write through `Style::overflow()`'s `BitfieldRef` assignment. -/
def Style.setOverflow (s : Style) (v : Nat) : Style :=
  { s with flags := setEnumData s.flags overflowOffset (bitWidthFn countOverflow) v }

/-- Const read accessor `Style::display() const`. -/
def Style.display (s : Style) : Nat :=
  getEnumData s.flags displayOffset (bitWidthFn countDisplay)

/-- Write through `Style::display()`'s `BitfieldRef` assignment. -/
def Style.setDisplay (s : Style) (v : Nat) : Style :=
  { s with flags := setEnumData s.flags displayOffset (bitWidthFn countDisplay) v }

/-- Const read accessor `Style::flex() const`. -/
def Style.flex (s : Style) : YGFloatOptional := s.flex_

/-- Write through `Style::flex()`'s `Ref` assignment. -/
def Style.setFlex (s : Style) (x : YGFloatOptional) : Style := { s with flex_ := x }

/-- Const read accessor `Style::flexGrow() const`. -/
def Style.flexGrow (s : Style) : YGFloatOptional := s.flexGrow_

/-- Write through `Style::flexGrow()`'s `Ref` assignment. -/
def Style.setFlexGrow (s : Style) (x : YGFloatOptional) : Style := { s with flexGrow_ := x }

/-- Const read accessor `Style::flexShrink() const`. -/
def Style.flexShrink (s : Style) : YGFloatOptional := s.flexShrink_

/-- Write through `Style::flexShrink()`'s `Ref` assignment. -/
def Style.setFlexShrink (s : Style) (x : YGFloatOptional) : Style := { s with flexShrink_ := x }

/-- Const read accessor `Style::flexBasis() const`. -/
def Style.flexBasis (s : Style) : CompactValue := s.flexBasis_

/-- Write through `Style::flexBasis()`'s `Ref` assignment. -/
def Style.setFlexBasis (s : Style) (v : CompactValue) : Style := { s with flexBasis_ := v }

/-- Const read accessor `Style::aspectRatio() const`. -/
def Style.aspectRatio (s : Style) : YGFloatOptional := s.aspectRatio_

/-- Write through `Style::aspectRatio()`'s `Ref` assignment. -/
def Style.setAspectRatio (s : Style) (x : YGFloatOptional) : Style := { s with aspectRatio_ := x }

/-- Indexed read `Style::margin() const` at an edge. -/
def Style.margin (s : Style) (e : Fin 9) : CompactValue := s.margin_ e

/-- Write through `Style::margin()`'s `IdxRef::Ref` assignment at an edge. -/
def Style.setMargin (s : Style) (e : Fin 9) (v : CompactValue) : Style :=
  { s with margin_ := Function.update s.margin_ e v }

/-- Indexed read `Style::position() const` at an edge. -/
def Style.position (s : Style) (e : Fin 9) : CompactValue := s.position_ e

/-- Write through `Style::position()`'s `IdxRef::Ref` assignment at an edge. -/
def Style.setPosition (s : Style) (e : Fin 9) (v : CompactValue) : Style :=
  { s with position_ := Function.update s.position_ e v }

/-- Indexed read `Style::padding() const` at an edge. -/
def Style.padding (s : Style) (e : Fin 9) : CompactValue := s.padding_ e

/-- Write through `Style::padding()`'s `IdxRef::Ref` assignment at an edge. -/
def Style.setPadding (s : Style) (e : Fin 9) (v : CompactValue) : Style :=
  { s with padding_ := Function.update s.padding_ e v }

/-- Indexed read `Style::border() const` at an edge. -/
def Style.border (s : Style) (e : Fin 9) : CompactValue := s.border_ e

/-- Write through `Style::border()`'s `IdxRef::Ref` assignment at an edge. -/
def Style.setBorder (s : Style) (e : Fin 9) (v : CompactValue) : Style :=
  { s with border_ := Function.update s.border_ e v }

/-- Indexed read `Style::gap() const` at a gutter. -/
def Style.gap (s : Style) (g : Fin 3) : CompactValue := s.gap_ g

/-- Write through `Style::gap()`'s `IdxRef::Ref` assignment at a gutter. -/
def Style.setGap (s : Style) (g : Fin 3) (v : CompactValue) : Style :=
  { s with gap_ := Function.update s.gap_ g v }

/-- Indexed read `Style::dimensions() const` at a dimension. -/
def Style.dimensions (s : Style) (d : Fin 2) : CompactValue := s.dimensions_ d

/-- Write through `Style::dimensions()`'s `IdxRef::Ref` assignment. -/
def Style.setDimensions (s : Style) (d : Fin 2) (v : CompactValue) : Style :=
  { s with dimensions_ := Function.update s.dimensions_ d v }

/-- Indexed read `Style::minDimensions() const` at a dimension. -/
def Style.minDimensions (s : Style) (d : Fin 2) : CompactValue := s.minDimensions_ d

/-- Write through `Style::minDimensions()`'s `IdxRef::Ref` assignment. -/
def Style.setMinDimensions (s : Style) (d : Fin 2) (v : CompactValue) : Style :=
  { s with minDimensions_ := Function.update s.minDimensions_ d v }

/-- Indexed read `Style::maxDimensions() const` at a dimension. -/
def Style.maxDimensions (s : Style) (d : Fin 2) : CompactValue := s.maxDimensions_ d

/-- Write through `Style::maxDimensions()`'s `IdxRef::Ref` assignment. -/
def Style.setMaxDimensions (s : Style) (d : Fin 2) (v : CompactValue) : Style :=
  { s with maxDimensions_ := Function.update s.maxDimensions_ d v }

/-- The member-initializer state of a `Style` before the constructor body
runs: `flags = 0`, optional scalars empty, `flexBasis_ = ofAuto`, the edge
and gutter containers and min/max dimensions default (all Undefined), and
`dimensions_` filled with `ofAuto`. -/
def styleInit : Style where
  flags := 0
  flex_ := none
  flexGrow_ := none
  flexShrink_ := none
  flexBasis_ := .ofAuto
  margin_ := fun _ => .ofUndefined
  position_ := fun _ => .ofUndefined
  padding_ := fun _ => .ofUndefined
  border_ := fun _ => .ofUndefined
  gap_ := fun _ => .ofUndefined
  dimensions_ := fun _ => .ofAuto
  minDimensions_ := fun _ => .ofUndefined
  maxDimensions_ := fun _ => .ofUndefined
  aspectRatio_ := none

/-- The default constructor `Style::Style()`: the member initializers, then
the body `alignContent() = YGAlignFlexStart; alignItems() = YGAlignStretch`. -/
def Style.mkDefault : Style :=
  (styleInit.setAlignContent YGAlignFlexStart).setAlignItems YGAlignStretch

/-- Modelled from the spec: `operator==(const Style&, const Style&)` is
defined in `Style.cpp`, which is not under `src/`.  Field-by-field equality:
the packed word by integer equality, optional scalars presence-then-value,
containers index-by-index, `flexBasis` by `CompactValue` equality. -/
def styleEq (a b : Style) : Bool :=
  a.flags == b.flags &&
  a.flex_ == b.flex_ &&
  a.flexGrow_ == b.flexGrow_ &&
  a.flexShrink_ == b.flexShrink_ &&
  CompactValue.beq a.flexBasis_ b.flexBasis_ &&
  decide (a.margin_ = b.margin_) &&
  decide (a.position_ = b.position_) &&
  decide (a.padding_ = b.padding_) &&
  decide (a.border_ = b.border_) &&
  decide (a.gap_ = b.gap_) &&
  decide (a.dimensions_ = b.dimensions_) &&
  decide (a.minDimensions_ = b.minDimensions_) &&
  decide (a.maxDimensions_ = b.maxDimensions_) &&
  a.aspectRatio_ == b.aspectRatio_

/-- The negation `operator!=` (`Style.h` line 236). -/
def styleNe (a b : Style) : Bool := !(styleEq a b)

/-- Bit offset of each of the ten packed-enum fields, in the declaration
order of `Style.h` lines 86-104. -/
def enumOffset : Fin 10 → Nat
  | ⟨0, _⟩ => directionOffset
  | ⟨1, _⟩ => flexdirectionOffset
  | ⟨2, _⟩ => justifyContentOffset
  | ⟨3, _⟩ => alignContentOffset
  | ⟨4, _⟩ => alignItemsOffset
  | ⟨5, _⟩ => alignSelfOffset
  | ⟨6, _⟩ => positionTypeOffset
  | ⟨7, _⟩ => flexWrapOffset
  | ⟨8, _⟩ => overflowOffset
  | ⟨9, _⟩ => displayOffset

/-- Cardinality of the enumeration stored in each packed field. -/
def enumCount : Fin 10 → Nat
  | ⟨0, _⟩ => countDirection
  | ⟨1, _⟩ => countFlexDirection
  | ⟨2, _⟩ => countJustify
  | ⟨3, _⟩ => countAlign
  | ⟨4, _⟩ => countAlign
  | ⟨5, _⟩ => countAlign
  | ⟨6, _⟩ => countPositionType
  | ⟨7, _⟩ => countWrap
  | ⟨8, _⟩ => countOverflow
  | ⟨9, _⟩ => countDisplay

/-- Bit width of each packed field. -/
def enumWidth (i : Fin 10) : Nat := bitWidthFn (enumCount i)

/-- Read of packed field `i` (uniform view of the ten const getters). -/
def enumGet (i : Fin 10) (s : Style) : Nat :=
  getEnumData s.flags (enumOffset i) (enumWidth i)

/-- Write of packed field `i` (uniform view of the ten `BitfieldRef`
assignments). -/
def enumSet (i : Fin 10) (s : Style) (v : Nat) : Style :=
  { s with flags := setEnumData s.flags (enumOffset i) (enumWidth i) v }

/-- Model of `Style::BitfieldRef`: the style and the field's bit offset, as
captured by the non-const accessors. -/
structure BitfieldRef where
  style : Style
  offset : Nat

/-- The `operator T()` conversion of `BitfieldRef`: decode at the stored
offset with the field type's width. -/
def BitfieldRef.get (r : BitfieldRef) (w : Nat) : Nat :=
  getEnumData r.style.flags r.offset w

/-- Non-const accessor `Style::direction()` building a `BitfieldRef`. -/
def Style.directionRef (s : Style) : BitfieldRef := ⟨s, directionOffset⟩

/-- Non-const accessor `Style::flexDirection()` building a `BitfieldRef`. -/
def Style.flexDirectionRef (s : Style) : BitfieldRef := ⟨s, flexdirectionOffset⟩

/-- Non-const accessor `Style::justifyContent()` building a `BitfieldRef`. -/
def Style.justifyContentRef (s : Style) : BitfieldRef := ⟨s, justifyContentOffset⟩

/-- Non-const accessor `Style::alignContent()` building a `BitfieldRef`. -/
def Style.alignContentRef (s : Style) : BitfieldRef := ⟨s, alignContentOffset⟩

/-- Non-const accessor `Style::alignItems()` building a `BitfieldRef`. -/
def Style.alignItemsRef (s : Style) : BitfieldRef := ⟨s, alignItemsOffset⟩

/-- Non-const accessor `Style::alignSelf()` building a `BitfieldRef`. -/
def Style.alignSelfRef (s : Style) : BitfieldRef := ⟨s, alignSelfOffset⟩

/-- Non-const accessor `Style::positionType()` building a `BitfieldRef`. -/
def Style.positionTypeRef (s : Style) : BitfieldRef := ⟨s, positionTypeOffset⟩

/-- Non-const accessor `Style::flexWrap()` building a `BitfieldRef`. -/
def Style.flexWrapRef (s : Style) : BitfieldRef := ⟨s, flexWrapOffset⟩

/-- Non-const accessor `Style::overflow()` building a `BitfieldRef`. -/
def Style.overflowRef (s : Style) : BitfieldRef := ⟨s, overflowOffset⟩

/-- Non-const accessor `Style::display()` building a `BitfieldRef`. -/
def Style.displayRef (s : Style) : BitfieldRef := ⟨s, displayOffset⟩

/-- Model of `Style::IdxRef`: the style plus the member pointer `Prop`
selecting one of the indexed containers. -/
structure IdxRef (n : Nat) where
  style : Style
  prop : Style → (Fin n → CompactValue)

/-- Model of `Style::IdxRef::Ref`: the proxy returned by the non-const
`operator[]`, holding the style, the member pointer and the index. -/
structure IdxRefRef (n : Nat) where
  style : Style
  prop : Style → (Fin n → CompactValue)
  idx : Fin n

/-- The `operator CompactValue()` conversion of `IdxRef::Ref`:
`(style.*Prop)[idx]`. -/
def IdxRefRef.read {n : Nat} (r : IdxRefRef n) : CompactValue :=
  r.prop r.style r.idx

/-- The non-const `IdxRef::operator[]`, returning the `Ref` proxy. -/
def IdxRef.refAt {n : Nat} (r : IdxRef n) (i : Fin n) : IdxRefRef n :=
  ⟨r.style, r.prop, i⟩

/-- The const `IdxRef::operator[]`: `(style.*Prop)[idx]` directly. -/
def IdxRef.getConst {n : Nat} (r : IdxRef n) (i : Fin n) : CompactValue :=
  r.prop r.style i

/-- Non-const accessor `Style::margin()` building an `IdxRef`. -/
def Style.marginIdxRef (s : Style) : IdxRef 9 := ⟨s, Style.margin_⟩

/-- Non-const accessor `Style::position()` building an `IdxRef`. -/
def Style.positionIdxRef (s : Style) : IdxRef 9 := ⟨s, Style.position_⟩

/-- Non-const accessor `Style::padding()` building an `IdxRef`. -/
def Style.paddingIdxRef (s : Style) : IdxRef 9 := ⟨s, Style.padding_⟩

/-- Non-const accessor `Style::border()` building an `IdxRef`. -/
def Style.borderIdxRef (s : Style) : IdxRef 9 := ⟨s, Style.border_⟩

/-- Non-const accessor `Style::gap()` building an `IdxRef`. -/
def Style.gapIdxRef (s : Style) : IdxRef 3 := ⟨s, Style.gap_⟩

/-- Non-const accessor `Style::dimensions()` building an `IdxRef`. -/
def Style.dimensionsIdxRef (s : Style) : IdxRef 2 := ⟨s, Style.dimensions_⟩

/-- Non-const accessor `Style::minDimensions()` building an `IdxRef`. -/
def Style.minDimensionsIdxRef (s : Style) : IdxRef 2 := ⟨s, Style.minDimensions_⟩

/-- Non-const accessor `Style::maxDimensions()` building an `IdxRef`. -/
def Style.maxDimensionsIdxRef (s : Style) : IdxRef 2 := ⟨s, Style.maxDimensions_⟩

/-! Bit-level facts about the encode and decode helpers. -/

/-- Bit `j` of the field mask is set exactly on the field's range. -/
theorem testBit_maskFn (w off j : Nat) :
    (maskFn w off).testBit j = (decide (off ≤ j) && decide (j < off + w)) := by
  simp only [maskFn, Nat.one_shiftLeft, Nat.testBit_shiftLeft,
    Nat.testBit_two_pow_sub_one, ge_iff_le]
  by_cases h1 : off ≤ j
  · by_cases h2 : j < off + w
    · simp [h1, h2]
      omega
    · simp [h1, h2]
      omega
  · simp [h1]

/-- Bit `j` of a decoded field is the word's bit `off + j`, for `j` inside
the width. -/
theorem testBit_getEnumData (f off w j : Nat) :
    (getEnumData f off w).testBit j = (f.testBit (off + j) && decide (j < w)) := by
  simp only [getEnumData, Nat.testBit_shiftRight, Nat.testBit_land, testBit_maskFn]
  by_cases hj : j < w
  · simp [hj]
  · simp [hj]

/-- Bit `j` after an encode: the new value inside the field's range, the old
word (clipped to 32 bits) outside it. -/
theorem testBit_setEnumData (f off w v j : Nat) (hw : off + w ≤ 32) :
    (setEnumData f off w v).testBit j =
      if off ≤ j ∧ j < off + w then v.testBit (j - off)
      else (f.testBit j && decide (j < 32)) := by
  simp only [setEnumData, Nat.testBit_lor, Nat.testBit_land, Nat.testBit_xor,
    testBit_maskFn, wordMask, Nat.testBit_two_pow_sub_one, Nat.testBit_shiftLeft,
    ge_iff_le]
  by_cases h1 : off ≤ j
  · by_cases h2 : j < off + w
    · have h3 : j < 32 := by omega
      simp [h1, h2, h3]
    · by_cases h3 : j < 32 <;> simp [h1, h2, h3]
  · by_cases h3 : j < 32 <;> simp [h1, h3]

/-- Decoding a field right after encoding it returns the encoded value. -/
theorem getEnumData_setEnumData_same (f off w v : Nat)
    (hw : off + w ≤ 32) (hv : v < 2 ^ w) :
    getEnumData (setEnumData f off w v) off w = v := by
  apply Nat.eq_of_testBit_eq
  intro j
  rw [testBit_getEnumData]
  by_cases hj : j < w
  · rw [testBit_setEnumData _ _ _ _ _ hw, if_pos (by omega)]
    simp [hj, Nat.add_sub_cancel_left]
  · have : v < 2 ^ j := lt_of_lt_of_le hv (Nat.pow_le_pow_right (by norm_num) (by omega))
    simp [hj, Nat.testBit_lt_two_pow this]

/-- Encoding one field leaves the decode of any disjoint field unchanged. -/
theorem getEnumData_setEnumData_disjoint (f o1 w1 v o2 w2 : Nat)
    (h1 : o1 + w1 ≤ 32) (h2 : o2 + w2 ≤ 32)
    (hd : o1 + w1 ≤ o2 ∨ o2 + w2 ≤ o1) :
    getEnumData (setEnumData f o1 w1 v) o2 w2 = getEnumData f o2 w2 := by
  apply Nat.eq_of_testBit_eq
  intro j
  rw [testBit_getEnumData, testBit_getEnumData]
  by_cases hj : j < w2
  · rw [testBit_setEnumData _ _ _ _ _ h1, if_neg (by omega)]
    have : o2 + j < 32 := by omega
    simp [this]
  · simp [hj]

/-- Encodes into disjoint fields commute. -/
theorem setEnumData_comm (f o1 w1 v1 o2 w2 v2 : Nat)
    (h1 : o1 + w1 ≤ 32) (h2 : o2 + w2 ≤ 32)
    (hd : o1 + w1 ≤ o2 ∨ o2 + w2 ≤ o1) :
    setEnumData (setEnumData f o1 w1 v1) o2 w2 v2 =
      setEnumData (setEnumData f o2 w2 v2) o1 w1 v1 := by
  apply Nat.eq_of_testBit_eq
  intro j
  rw [testBit_setEnumData _ _ _ _ _ h2, testBit_setEnumData _ _ _ _ _ h1,
    testBit_setEnumData _ _ _ _ _ h1, testBit_setEnumData _ _ _ _ _ h2]
  by_cases i1 : o1 ≤ j ∧ j < o1 + w1
  · rw [if_neg (by omega), if_pos i1, if_pos i1]
    simp [show j < 32 by omega]
  · by_cases i2 : o2 ≤ j ∧ j < o2 + w2
    · rw [if_pos i2, if_neg i1, if_pos i2]
      simp [show j < 32 by omega]
    · rw [if_neg i2, if_neg i1, if_neg i1, if_neg i2]

/-- With enough fuel, `log2ceilAux` computes the exact bit length of a
positive number: `n` fits in the result and the result is tight. -/
theorem log2ceilAux_bounds :
    ∀ (fuel n : Nat), 1 ≤ n → n ≤ fuel →
      n < 2 ^ log2ceilAux fuel n ∧ 2 ^ log2ceilAux fuel n ≤ 2 * n := by
  intro fuel
  induction fuel with
  | zero =>
    intro n h1 h2
    omega
  | succ f ih =>
    intro n h1 h2
    simp only [log2ceilAux]
    rw [if_neg (by omega)]
    by_cases hn : n = 1
    · subst hn
      have hz : log2ceilAux f 0 = 0 := by cases f <;> simp [log2ceilAux]
      simp [hz]
    · have h3 : 1 ≤ n / 2 := by omega
      have h4 : n / 2 ≤ f := by omega
      obtain ⟨ha, hb⟩ := ih (n / 2) h3 h4
      have hp : 2 ^ (1 + log2ceilAux f (n / 2)) = 2 * 2 ^ log2ceilAux f (n / 2) := by
        rw [pow_add]
        ring
      rw [hp]
      omega

/-- `bitWidthFn` is the minimal width: every ordinal below `c` fits, and no
smaller width admits them all. -/
theorem bitWidthFn_minimal (c : Nat) (h : 1 ≤ c) :
    c ≤ 2 ^ bitWidthFn c ∧ ∀ w, c ≤ 2 ^ w → bitWidthFn c ≤ w := by
  by_cases hc : c = 1
  · subst hc
    refine ⟨by simp [bitWidthFn, log2ceilFn, log2ceilAux], ?_⟩
    intro w _
    simp [bitWidthFn, log2ceilFn, log2ceilAux]
  · have hm : 1 ≤ c - 1 := by omega
    obtain ⟨ha, hb⟩ := log2ceilAux_bounds (c - 1) (c - 1) hm le_rfl
    have hbw : bitWidthFn c = log2ceilAux (c - 1) (c - 1) := rfl
    constructor
    · rw [hbw]
      omega
    · intro w hw
      rw [hbw]
      by_contra hlt
      push_neg at hlt
      have hb1 : 1 ≤ log2ceilAux (c - 1) (c - 1) := by
        by_contra hz
        have : log2ceilAux (c - 1) (c - 1) = 0 := by omega
        rw [this] at ha
        omega
      have hsplit : 2 ^ log2ceilAux (c - 1) (c - 1) =
          2 * 2 ^ (log2ceilAux (c - 1) (c - 1) - 1) := by
        conv_lhs => rw [show log2ceilAux (c - 1) (c - 1) =
          (log2ceilAux (c - 1) (c - 1) - 1) + 1 by omega]
        rw [pow_succ]
        ring
      have hmono : 2 ^ w ≤ 2 ^ (log2ceilAux (c - 1) (c - 1) - 1) :=
        Nat.pow_le_pow_right (by norm_num) (by omega)
      omega

/-- Every packed field fits inside the 32-bit word. -/
theorem enumField_le_32 (i : Fin 10) : enumOffset i + enumWidth i ≤ 32 := by
  revert i
  decide

/-- Distinct packed fields occupy disjoint bit ranges. -/
theorem enumField_disjoint (i j : Fin 10) (h : i ≠ j) :
    enumOffset i + enumWidth i ≤ enumOffset j ∨
      enumOffset j + enumWidth j ≤ enumOffset i := by
  revert i j
  decide

/-- Each enumeration's ordinals fit in the field's width. -/
theorem enumCount_le_width (i : Fin 10) : enumCount i ≤ 2 ^ enumWidth i := by
  revert i
  decide

/-- Setting a packed field and reading it back yields the written ordinal. -/
theorem enumGet_enumSet_same (s : Style) (i : Fin 10) (v : Nat) (hv : v < enumCount i) :
    enumGet i (enumSet i s v) = v :=
  getEnumData_setEnumData_same s.flags (enumOffset i) (enumWidth i) v
    (enumField_le_32 i) (lt_of_lt_of_le hv (enumCount_le_width i))

/-- Setting a packed field leaves every other packed field unchanged. -/
theorem enumGet_enumSet_other (s : Style) (i j : Fin 10) (v : Nat) (h : j ≠ i) :
    enumGet j (enumSet i s v) = enumGet j s :=
  getEnumData_setEnumData_disjoint s.flags (enumOffset i) (enumWidth i) v
    (enumOffset j) (enumWidth j) (enumField_le_32 i) (enumField_le_32 j)
    (enumField_disjoint i j (Ne.symm h))

/-- `CompactValue` equality is reflexive. -/
theorem CompactValue.beq_refl (v : CompactValue) : CompactValue.beq v v = true := by
  cases v <;> simp [CompactValue.beq]

/-- `CompactValue` equality decides propositional equality. -/
theorem CompactValue.beq_eq (a b : CompactValue) :
    CompactValue.beq a b = true ↔ a = b := by
  cases a <;> cases b <;> simp [CompactValue.beq]

/-- `styleEq` is reflexive on every `Style` value. -/
theorem styleEq_refl (s : Style) : styleEq s s = true := by
  simp [styleEq, CompactValue.beq_refl]

/-- Propositionally equal styles compare equal under `styleEq`. -/
theorem styleEq_of_eq {a b : Style} (h : a = b) : styleEq a b = true := by
  subst h
  exact styleEq_refl a

/-- C1: a default-constructed Style has alignContent = FlexStart, alignItems
= Stretch, flexBasis of unit Auto, both dimension slots of unit Auto, every
other packed-enum property at ordinal 0, every slot of margin, position,
padding, border, gap, minDimensions and maxDimensions Undefined, and flex,
flexGrow, flexShrink and aspectRatio absent. -/
theorem default_style_values :
    Style.mkDefault.alignContent = YGAlignFlexStart ∧
    Style.mkDefault.alignItems = YGAlignStretch ∧
    Style.mkDefault.flexBasis.unit = YGUnit.auto ∧
    (Style.mkDefault.dimensions YGDimensionWidth).unit = YGUnit.auto ∧
    (Style.mkDefault.dimensions YGDimensionHeight).unit = YGUnit.auto ∧
    Style.mkDefault.direction = 0 ∧
    Style.mkDefault.flexDirection = 0 ∧
    Style.mkDefault.justifyContent = 0 ∧
    Style.mkDefault.alignSelf = 0 ∧
    Style.mkDefault.positionType = 0 ∧
    Style.mkDefault.flexWrap = 0 ∧
    Style.mkDefault.overflow = 0 ∧
    Style.mkDefault.display = 0 ∧
    (∀ e : Fin 9, Style.mkDefault.margin e = CompactValue.ofUndefined) ∧
    (∀ e : Fin 9, Style.mkDefault.position e = CompactValue.ofUndefined) ∧
    (∀ e : Fin 9, Style.mkDefault.padding e = CompactValue.ofUndefined) ∧
    (∀ e : Fin 9, Style.mkDefault.border e = CompactValue.ofUndefined) ∧
    (∀ g : Fin 3, Style.mkDefault.gap g = CompactValue.ofUndefined) ∧
    (∀ d : Fin 2, Style.mkDefault.minDimensions d = CompactValue.ofUndefined) ∧
    (∀ d : Fin 2, Style.mkDefault.maxDimensions d = CompactValue.ofUndefined) ∧
    Style.mkDefault.flex = none ∧
    Style.mkDefault.flexGrow = none ∧
    Style.mkDefault.flexShrink = none ∧
    Style.mkDefault.aspectRatio = none := by
  decide

/-- C2: for every packed-enum property, writing any ordinal below the
enumeration's cardinality reads back as that ordinal, and every other packed
property in the flags word is unchanged; the uniform field view coincides
with the named accessors. -/
theorem packed_field_isolation :
    (∀ (s : Style) (i : Fin 10) (v : Nat), v < enumCount i →
      enumGet i (enumSet i s v) = v) ∧
    (∀ (s : Style) (i j : Fin 10) (v : Nat), j ≠ i →
      enumGet j (enumSet i s v) = enumGet j s) ∧
    (∀ s : Style,
      enumGet 0 s = s.direction ∧ enumGet 1 s = s.flexDirection ∧
      enumGet 2 s = s.justifyContent ∧ enumGet 3 s = s.alignContent ∧
      enumGet 4 s = s.alignItems ∧ enumGet 5 s = s.alignSelf ∧
      enumGet 6 s = s.positionType ∧ enumGet 7 s = s.flexWrap ∧
      enumGet 8 s = s.overflow ∧ enumGet 9 s = s.display) ∧
    (∀ (s : Style) (v : Nat),
      enumSet 0 s v = s.setDirection v ∧ enumSet 1 s v = s.setFlexDirection v ∧
      enumSet 2 s v = s.setJustifyContent v ∧ enumSet 3 s v = s.setAlignContent v ∧
      enumSet 4 s v = s.setAlignItems v ∧ enumSet 5 s v = s.setAlignSelf v ∧
      enumSet 6 s v = s.setPositionType v ∧ enumSet 7 s v = s.setFlexWrap v ∧
      enumSet 8 s v = s.setOverflow v ∧ enumSet 9 s v = s.setDisplay v) :=
  ⟨enumGet_enumSet_same, fun s i j v h => enumGet_enumSet_other s i j v h,
    fun _ => ⟨rfl, rfl, rfl, rfl, rfl, rfl, rfl, rfl, rfl, rfl⟩,
    fun _ _ => ⟨rfl, rfl, rfl, rfl, rfl, rfl, rfl, rfl, rfl, rfl⟩⟩

/-- C2 witness: writing ordinal 2 into align-content on a default Style
reads back as 2 and leaves align-items at its default. -/
theorem packed_field_isolation_witness :
    enumGet 3 (enumSet 3 Style.mkDefault 2) = 2 ∧
    enumGet 4 (enumSet 3 Style.mkDefault 2) = enumGet 4 Style.mkDefault :=
  ⟨packed_field_isolation.1 Style.mkDefault 3 2 (by decide),
    packed_field_isolation.2.1 Style.mkDefault 3 4 2 (by decide)⟩

/-- C3: for every indexed container, writing a value at one index reads back
at that index, leaves every other index unchanged, and in particular writing
the All edge does not change the Left edge. -/
theorem container_index_isolation :
    (∀ (s : Style) (e : Fin 9) (v : CompactValue),
      (s.setMargin e v).margin e = v ∧
      ∀ j : Fin 9, j ≠ e → (s.setMargin e v).margin j = s.margin j) ∧
    (∀ (s : Style) (e : Fin 9) (v : CompactValue),
      (s.setPosition e v).position e = v ∧
      ∀ j : Fin 9, j ≠ e → (s.setPosition e v).position j = s.position j) ∧
    (∀ (s : Style) (e : Fin 9) (v : CompactValue),
      (s.setPadding e v).padding e = v ∧
      ∀ j : Fin 9, j ≠ e → (s.setPadding e v).padding j = s.padding j) ∧
    (∀ (s : Style) (e : Fin 9) (v : CompactValue),
      (s.setBorder e v).border e = v ∧
      ∀ j : Fin 9, j ≠ e → (s.setBorder e v).border j = s.border j) ∧
    (∀ (s : Style) (g : Fin 3) (v : CompactValue),
      (s.setGap g v).gap g = v ∧
      ∀ j : Fin 3, j ≠ g → (s.setGap g v).gap j = s.gap j) ∧
    (∀ (s : Style) (d : Fin 2) (v : CompactValue),
      (s.setDimensions d v).dimensions d = v ∧
      ∀ j : Fin 2, j ≠ d → (s.setDimensions d v).dimensions j = s.dimensions j) ∧
    (∀ (s : Style) (d : Fin 2) (v : CompactValue),
      (s.setMinDimensions d v).minDimensions d = v ∧
      ∀ j : Fin 2, j ≠ d → (s.setMinDimensions d v).minDimensions j = s.minDimensions j) ∧
    (∀ (s : Style) (d : Fin 2) (v : CompactValue),
      (s.setMaxDimensions d v).maxDimensions d = v ∧
      ∀ j : Fin 2, j ≠ d → (s.setMaxDimensions d v).maxDimensions j = s.maxDimensions j) ∧
    (∀ (s : Style) (v : CompactValue),
      (s.setMargin YGEdgeAll v).margin YGEdgeLeft = s.margin YGEdgeLeft) := by
  refine ⟨?_, ?_, ?_, ?_, ?_, ?_, ?_, ?_, ?_⟩ <;>
    first
      | (intro s e v
         constructor
         · simp [Style.setMargin, Style.margin, Style.setPosition, Style.position,
             Style.setPadding, Style.padding, Style.setBorder, Style.border,
             Style.setGap, Style.gap, Style.setDimensions, Style.dimensions,
             Style.setMinDimensions, Style.minDimensions,
             Style.setMaxDimensions, Style.maxDimensions]
         · intro j hj
           simp [Style.setMargin, Style.margin, Style.setPosition, Style.position,
             Style.setPadding, Style.padding, Style.setBorder, Style.border,
             Style.setGap, Style.gap, Style.setDimensions, Style.dimensions,
             Style.setMinDimensions, Style.minDimensions,
             Style.setMaxDimensions, Style.maxDimensions,
             Function.update_noteq hj])
      | (intro s v
         simp [Style.setMargin, Style.margin,
           Function.update_noteq (show YGEdgeLeft ≠ YGEdgeAll by decide)])

/-- C3 witness: writing 10 points at margin All reads back at All and leaves
margin Left at its previous (default) value. -/
theorem container_index_isolation_witness :
    (Style.mkDefault.setMargin YGEdgeAll (CompactValue.ofPoints 10)).margin YGEdgeAll =
      CompactValue.ofPoints 10 ∧
    (Style.mkDefault.setMargin YGEdgeAll (CompactValue.ofPoints 10)).margin YGEdgeLeft =
      Style.mkDefault.margin YGEdgeLeft :=
  ⟨(container_index_isolation.1 Style.mkDefault YGEdgeAll (CompactValue.ofPoints 10)).1,
    (container_index_isolation.1 Style.mkDefault YGEdgeAll
      (CompactValue.ofPoints 10)).2 YGEdgeLeft (by decide)⟩

/-- C4: each packed field's width is the minimum number of bits for its
enumeration's ordinal range, each offset is the sum of the widths of the
preceding fields in declaration order, and the ten fields together stay
within the 32-bit word. -/
theorem packed_word_layout :
    (∀ i : Fin 10, enumCount i ≤ 2 ^ enumWidth i ∧
      ∀ w, enumCount i ≤ 2 ^ w → enumWidth i ≤ w) ∧
    directionOffset = 0 ∧
    flexdirectionOffset = directionOffset + bitWidthFn countDirection ∧
    justifyContentOffset = flexdirectionOffset + bitWidthFn countFlexDirection ∧
    alignContentOffset = justifyContentOffset + bitWidthFn countJustify ∧
    alignItemsOffset = alignContentOffset + bitWidthFn countAlign ∧
    alignSelfOffset = alignItemsOffset + bitWidthFn countAlign ∧
    positionTypeOffset = alignSelfOffset + bitWidthFn countAlign ∧
    flexWrapOffset = positionTypeOffset + bitWidthFn countPositionType ∧
    overflowOffset = flexWrapOffset + bitWidthFn countWrap ∧
    displayOffset = overflowOffset + bitWidthFn countOverflow ∧
    displayOffset + bitWidthFn countDisplay ≤ 32 := by
  refine ⟨?_, rfl, rfl, rfl, rfl, rfl, rfl, rfl, rfl, rfl, rfl, by decide⟩
  intro i
  exact bitWidthFn_minimal (enumCount i) (by revert i; decide)

/-- C4 witness: the align-content field (cardinality 8) fits its 3-bit width
and no width below 3 suffices, witnessed at `w = 3`. -/
theorem packed_word_layout_witness :
    enumCount 3 ≤ 2 ^ enumWidth 3 ∧ enumWidth 3 ≤ 3 :=
  ⟨(packed_word_layout.1 3).1, (packed_word_layout.1 3).2 3 (by decide)⟩

/-- C5: Style equality is reflexive on every value, including the
default-constructed Style and styles whose payloads are NaN bit patterns. -/
theorem style_equality_reflexive :
    (∀ s : Style, styleEq s s = true) ∧
    styleEq Style.mkDefault Style.mkDefault = true ∧
    (∀ bits : Nat,
      styleEq (Style.mkDefault.setFlexBasis (CompactValue.ofPoints bits))
        (Style.mkDefault.setFlexBasis (CompactValue.ofPoints bits)) = true) :=
  ⟨styleEq_refl, styleEq_refl Style.mkDefault, fun _ => styleEq_refl _⟩

/-- C7: `ofPoints` and `ofPercent` round-trip unit and payload, and the
conversion between `CompactValue` and the boundary kind-plus-number
representation is bidirectional and lossless for all four kinds. -/
theorem compactValue_roundtrip :
    (∀ x : Nat, (CompactValue.ofPoints x).unit = YGUnit.point ∧
      (CompactValue.ofPoints x).value = x) ∧
    (∀ x : Nat, (CompactValue.ofPercent x).unit = YGUnit.percent ∧
      (CompactValue.ofPercent x).value = x) ∧
    (∀ c : CompactValue, CompactValue.fromYGValue c.toYGValue = c) ∧
    (∀ v : YGValue,
      v.unit = YGUnit.point ∨ v.unit = YGUnit.percent ∨ v.value = undefinedPayload →
      (CompactValue.fromYGValue v).toYGValue = v) := by
  refine ⟨fun x => ⟨rfl, rfl⟩, fun x => ⟨rfl, rfl⟩, ?_, ?_⟩
  · intro c
    cases c <;> rfl
  · rintro ⟨val, u⟩ h
    cases u
    · rcases h with h | h | h
      · exact absurd h (by simp)
      · exact absurd h (by simp)
      · simp only at h
        subst h
        rfl
    · rfl
    · rfl
    · rcases h with h | h | h
      · exact absurd h (by simp)
      · exact absurd h (by simp)
      · simp only at h
        subst h
        rfl

/-- C7 witness: a concrete point value round-trips, and the canonical
Undefined boundary value converts back and forth unchanged. -/
theorem compactValue_roundtrip_witness :
    (CompactValue.ofPoints 10).unit = YGUnit.point ∧
    (CompactValue.fromYGValue ⟨undefinedPayload, YGUnit.undefined⟩).toYGValue =
      (⟨undefinedPayload, YGUnit.undefined⟩ : YGValue) :=
  ⟨(compactValue_roundtrip.1 10).1,
    compactValue_roundtrip.2.2.2 ⟨undefinedPayload, YGUnit.undefined⟩
      (Or.inr (Or.inr rfl))⟩

/-- C8: `CompactValue` equality holds between any two Undefined values and
any two Auto values, holds between Point (or Percent) values with
bit-identical payloads — NaN patterns included — and in general decides
same-kind, same-bits identity. -/
theorem compactValue_equality_bitlevel :
    CompactValue.beq CompactValue.ofUndefined CompactValue.ofUndefined = true ∧
    CompactValue.beq CompactValue.ofAuto CompactValue.ofAuto = true ∧
    (∀ x : Nat, CompactValue.beq (CompactValue.ofPoints x) (CompactValue.ofPoints x) = true) ∧
    (∀ x : Nat, CompactValue.beq (CompactValue.ofPercent x) (CompactValue.ofPercent x) = true) ∧
    (∀ a b : CompactValue, CompactValue.beq a b = true ↔ a = b) :=
  ⟨rfl, rfl, fun _ => by simp [CompactValue.beq], fun _ => by simp [CompactValue.beq],
    CompactValue.beq_eq⟩

/-- C8 witness: two Point values whose shared payload is the quiet-NaN bit
pattern still compare equal. -/
theorem compactValue_equality_bitlevel_witness :
    CompactValue.beq (CompactValue.ofPoints undefinedPayload)
      (CompactValue.ofPoints undefinedPayload) = true :=
  compactValue_equality_bitlevel.2.2.1 undefinedPayload

/-- C9: no accessor is fallible — the optional scalars read back `none` on a
default Style rather than failing, every scalar and flexBasis setter accepts
any value and stores it, and every packed-enum setter accepts any ordinal
within its enumeration's cardinality. -/
theorem accessors_total_and_absent :
    Style.mkDefault.flex = none ∧
    Style.mkDefault.flexGrow = none ∧
    Style.mkDefault.flexShrink = none ∧
    Style.mkDefault.aspectRatio = none ∧
    (∀ (s : Style) (x : YGFloatOptional), (s.setFlex x).flex = x) ∧
    (∀ (s : Style) (x : YGFloatOptional), (s.setFlexGrow x).flexGrow = x) ∧
    (∀ (s : Style) (x : YGFloatOptional), (s.setFlexShrink x).flexShrink = x) ∧
    (∀ (s : Style) (x : YGFloatOptional), (s.setAspectRatio x).aspectRatio = x) ∧
    (∀ (s : Style) (v : CompactValue), (s.setFlexBasis v).flexBasis = v) ∧
    (∀ (s : Style) (i : Fin 10) (v : Nat), v < enumCount i →
      enumGet i (enumSet i s v) = v) :=
  ⟨rfl, rfl, rfl, rfl, fun _ _ => rfl, fun _ _ => rfl, fun _ _ => rfl,
    fun _ _ => rfl, fun _ _ => rfl, enumGet_enumSet_same⟩

/-- C9 witness: flexGrow set to 1 reads back as present-and-1, and the
display field accepts its top ordinal. -/
theorem accessors_total_and_absent_witness :
    (Style.mkDefault.setFlexGrow (some 1)).flexGrow = some 1 ∧
    enumGet 9 (enumSet 9 Style.mkDefault 1) = 1 :=
  ⟨accessors_total_and_absent.2.2.2.2.2.1 Style.mkDefault (some 1),
    accessors_total_and_absent.2.2.2.2.2.2.2.2.2 Style.mkDefault 9 1 (by decide)⟩

/-- C10: for every property the const read accessor and the proxy-reference
read path return the same value: each packed-enum const getter matches the
`BitfieldRef` conversion at the same offset and width, and each container's
const indexed read matches the `IdxRef::Ref` conversion at the same index. -/
theorem const_and_proxy_reads_agree :
    (∀ s : Style,
      s.direction = s.directionRef.get (bitWidthFn countDirection) ∧
      s.flexDirection = s.flexDirectionRef.get (bitWidthFn countFlexDirection) ∧
      s.justifyContent = s.justifyContentRef.get (bitWidthFn countJustify) ∧
      s.alignContent = s.alignContentRef.get (bitWidthFn countAlign) ∧
      s.alignItems = s.alignItemsRef.get (bitWidthFn countAlign) ∧
      s.alignSelf = s.alignSelfRef.get (bitWidthFn countAlign) ∧
      s.positionType = s.positionTypeRef.get (bitWidthFn countPositionType) ∧
      s.flexWrap = s.flexWrapRef.get (bitWidthFn countWrap) ∧
      s.overflow = s.overflowRef.get (bitWidthFn countOverflow) ∧
      s.display = s.displayRef.get (bitWidthFn countDisplay)) ∧
    (∀ (s : Style) (e : Fin 9),
      (s.marginIdxRef.refAt e).read = s.marginIdxRef.getConst e ∧
      s.marginIdxRef.getConst e = s.margin e ∧
      (s.positionIdxRef.refAt e).read = s.positionIdxRef.getConst e ∧
      s.positionIdxRef.getConst e = s.position e ∧
      (s.paddingIdxRef.refAt e).read = s.paddingIdxRef.getConst e ∧
      s.paddingIdxRef.getConst e = s.padding e ∧
      (s.borderIdxRef.refAt e).read = s.borderIdxRef.getConst e ∧
      s.borderIdxRef.getConst e = s.border e) ∧
    (∀ (s : Style) (g : Fin 3),
      (s.gapIdxRef.refAt g).read = s.gapIdxRef.getConst g ∧
      s.gapIdxRef.getConst g = s.gap g) ∧
    (∀ (s : Style) (d : Fin 2),
      (s.dimensionsIdxRef.refAt d).read = s.dimensionsIdxRef.getConst d ∧
      s.dimensionsIdxRef.getConst d = s.dimensions d ∧
      (s.minDimensionsIdxRef.refAt d).read = s.minDimensionsIdxRef.getConst d ∧
      s.minDimensionsIdxRef.getConst d = s.minDimensions d ∧
      (s.maxDimensionsIdxRef.refAt d).read = s.maxDimensionsIdxRef.getConst d ∧
      s.maxDimensionsIdxRef.getConst d = s.maxDimensions d) :=
  ⟨fun _ => ⟨rfl, rfl, rfl, rfl, rfl, rfl, rfl, rfl, rfl, rfl⟩,
    fun _ _ => ⟨rfl, rfl, rfl, rfl, rfl, rfl, rfl, rfl⟩,
    fun _ _ => ⟨rfl, rfl⟩,
    fun _ _ => ⟨rfl, rfl, rfl, rfl, rfl, rfl⟩⟩

/-- One property write against a `Style`, covering every settable property:
a packed field, an optional scalar, flexBasis, or one slot of an indexed
container. -/
inductive StyleWrite
  | wenum (i : Fin 10) (v : Nat)
  | wflex (x : YGFloatOptional)
  | wflexGrow (x : YGFloatOptional)
  | wflexShrink (x : YGFloatOptional)
  | wflexBasis (v : CompactValue)
  | wmargin (e : Fin 9) (v : CompactValue)
  | wposition (e : Fin 9) (v : CompactValue)
  | wpadding (e : Fin 9) (v : CompactValue)
  | wborder (e : Fin 9) (v : CompactValue)
  | wgap (g : Fin 3) (v : CompactValue)
  | wdimensions (d : Fin 2) (v : CompactValue)
  | wminDimensions (d : Fin 2) (v : CompactValue)
  | wmaxDimensions (d : Fin 2) (v : CompactValue)
  | waspectRatio (x : YGFloatOptional)
deriving DecidableEq, Repr

/-- The property a `StyleWrite` targets (which packed field, which scalar,
or which container slot), forgetting the written value. -/
inductive StyleTarget
  | tenum (i : Fin 10)
  | tflex
  | tflexGrow
  | tflexShrink
  | tflexBasis
  | tmargin (e : Fin 9)
  | tposition (e : Fin 9)
  | tpadding (e : Fin 9)
  | tborder (e : Fin 9)
  | tgap (g : Fin 3)
  | tdimensions (d : Fin 2)
  | tminDimensions (d : Fin 2)
  | tmaxDimensions (d : Fin 2)
  | taspectRatio
deriving DecidableEq, Repr

/-- Target of a write. -/
def StyleWrite.target : StyleWrite → StyleTarget
  | .wenum i _ => .tenum i
  | .wflex _ => .tflex
  | .wflexGrow _ => .tflexGrow
  | .wflexShrink _ => .tflexShrink
  | .wflexBasis _ => .tflexBasis
  | .wmargin e _ => .tmargin e
  | .wposition e _ => .tposition e
  | .wpadding e _ => .tpadding e
  | .wborder e _ => .tborder e
  | .wgap g _ => .tgap g
  | .wdimensions d _ => .tdimensions d
  | .wminDimensions d _ => .tminDimensions d
  | .wmaxDimensions d _ => .tmaxDimensions d
  | .waspectRatio _ => .taspectRatio

/-- Apply one write through the corresponding accessor. -/
def StyleWrite.apply (s : Style) : StyleWrite → Style
  | .wenum i v => enumSet i s v
  | .wflex x => s.setFlex x
  | .wflexGrow x => s.setFlexGrow x
  | .wflexShrink x => s.setFlexShrink x
  | .wflexBasis v => s.setFlexBasis v
  | .wmargin e v => s.setMargin e v
  | .wposition e v => s.setPosition e v
  | .wpadding e v => s.setPadding e v
  | .wborder e v => s.setBorder e v
  | .wgap g v => s.setGap g v
  | .wdimensions d v => s.setDimensions d v
  | .wminDimensions d v => s.setMinDimensions d v
  | .wmaxDimensions d v => s.setMaxDimensions d v
  | .waspectRatio x => s.setAspectRatio x

/-- Apply a sequence of writes left to right, as a style-builder would. -/
def applyWrites (s : Style) (l : List StyleWrite) : Style :=
  l.foldl StyleWrite.apply s

/-- Writes into two distinct packed fields commute. -/
theorem enumSet_comm (s : Style) (i j : Fin 10) (v1 v2 : Nat) (h : i ≠ j) :
    enumSet j (enumSet i s v1) v2 = enumSet i (enumSet j s v2) v1 := by
  simp only [enumSet]
  congr 1
  exact setEnumData_comm s.flags (enumOffset i) (enumWidth i) v1 (enumOffset j)
    (enumWidth j) v2 (enumField_le_32 i) (enumField_le_32 j) (enumField_disjoint i j h)

/-- Writes at two distinct indices of one container commute. -/
theorem update_update_comm {n : Nat} (f : Fin n → CompactValue) (i j : Fin n)
    (v w : CompactValue) (h : i ≠ j) :
    Function.update (Function.update f i v) j w =
      Function.update (Function.update f j w) i v :=
  Function.update_comm h v w f

/-- Writes to distinct targets commute. -/
theorem styleWrite_apply_comm (a b : StyleWrite) (s : Style)
    (h : a.target ≠ b.target) :
    StyleWrite.apply (StyleWrite.apply s a) b = StyleWrite.apply (StyleWrite.apply s b) a := by
  cases a <;> cases b <;>
    simp only [StyleWrite.target, ne_eq, StyleTarget.tenum.injEq,
      StyleTarget.tmargin.injEq, StyleTarget.tposition.injEq,
      StyleTarget.tpadding.injEq, StyleTarget.tborder.injEq,
      StyleTarget.tgap.injEq, StyleTarget.tdimensions.injEq,
      StyleTarget.tminDimensions.injEq, StyleTarget.tmaxDimensions.injEq,
      not_true_eq_false, not_false_eq_true] at h <;>
    first
      | rfl
      | exact enumSet_comm s _ _ _ _ h
      | (show Style.setMargin _ _ _ = Style.setMargin _ _ _
         simp only [Style.setMargin]
         congr 1
         exact update_update_comm s.margin_ _ _ _ _ h)
      | (show Style.setPosition _ _ _ = Style.setPosition _ _ _
         simp only [Style.setPosition]
         congr 1
         exact update_update_comm s.position_ _ _ _ _ h)
      | (show Style.setPadding _ _ _ = Style.setPadding _ _ _
         simp only [Style.setPadding]
         congr 1
         exact update_update_comm s.padding_ _ _ _ _ h)
      | (show Style.setBorder _ _ _ = Style.setBorder _ _ _
         simp only [Style.setBorder]
         congr 1
         exact update_update_comm s.border_ _ _ _ _ h)
      | (show Style.setGap _ _ _ = Style.setGap _ _ _
         simp only [Style.setGap]
         congr 1
         exact update_update_comm s.gap_ _ _ _ _ h)
      | (show Style.setDimensions _ _ _ = Style.setDimensions _ _ _
         simp only [Style.setDimensions]
         congr 1
         exact update_update_comm s.dimensions_ _ _ _ _ h)
      | (show Style.setMinDimensions _ _ _ = Style.setMinDimensions _ _ _
         simp only [Style.setMinDimensions]
         congr 1
         exact update_update_comm s.minDimensions_ _ _ _ _ h)
      | (show Style.setMaxDimensions _ _ _ = Style.setMaxDimensions _ _ _
         simp only [Style.setMaxDimensions]
         congr 1
         exact update_update_comm s.maxDimensions_ _ _ _ _ h)

/-- Applying the same set of writes in any order yields the same `Style`, as
long as the writes hit pairwise distinct targets. -/
theorem applyWrites_perm {l1 l2 : List StyleWrite} (hp : l1.Perm l2)
    (hn : (l1.map StyleWrite.target).Nodup) (s : Style) :
    applyWrites s l1 = applyWrites s l2 := by
  induction hp generalizing s with
  | nil => rfl
  | cons x hp ih =>
    simp only [List.map_cons, List.nodup_cons] at hn
    exact ih hn.2 (StyleWrite.apply s x)
  | swap x y l =>
    simp only [List.map_cons, List.nodup_cons, List.mem_cons] at hn
    have hxy : y.target ≠ x.target := fun hcontra => hn.1 (Or.inl hcontra)
    show applyWrites (StyleWrite.apply (StyleWrite.apply s y) x) l =
      applyWrites (StyleWrite.apply (StyleWrite.apply s x) y) l
    rw [styleWrite_apply_comm y x s hxy]
  | trans hp1 hp2 ih1 ih2 =>
    have hn2 := ((hp1.map StyleWrite.target).nodup_iff).mp hn
    rw [ih1 hn s, ih2 hn2 s]

/-- `styleEq` decides propositional equality of styles. -/
theorem styleEq_eq_true_iff (a b : Style) : styleEq a b = true ↔ a = b := by
  constructor
  · intro h
    cases a
    cases b
    simp only [styleEq, Bool.and_eq_true, beq_iff_eq, decide_eq_true_eq,
      CompactValue.beq_eq] at h
    simp only [Style.mk.injEq]
    tauto
  · intro h
    exact styleEq_of_eq h

/-- C6: two Styles built from a default Style by the same set of property
writes, applied in any order, compare equal under the equality operator; and
two Styles that differ in a property compare unequal. -/
theorem style_build_determinism :
    (∀ (l1 l2 : List StyleWrite), l1.Perm l2 →
      (l1.map StyleWrite.target).Nodup →
      styleEq (applyWrites Style.mkDefault l1) (applyWrites Style.mkDefault l2) = true) ∧
    (∀ s t : Style,
      ((∃ i, enumGet i s ≠ enumGet i t) ∨
       s.flex ≠ t.flex ∨ s.flexGrow ≠ t.flexGrow ∨ s.flexShrink ≠ t.flexShrink ∨
       s.flexBasis ≠ t.flexBasis ∨
       (∃ e, s.margin e ≠ t.margin e) ∨ (∃ e, s.position e ≠ t.position e) ∨
       (∃ e, s.padding e ≠ t.padding e) ∨ (∃ e, s.border e ≠ t.border e) ∨
       (∃ g, s.gap g ≠ t.gap g) ∨ (∃ d, s.dimensions d ≠ t.dimensions d) ∨
       (∃ d, s.minDimensions d ≠ t.minDimensions d) ∨
       (∃ d, s.maxDimensions d ≠ t.maxDimensions d) ∨
       s.aspectRatio ≠ t.aspectRatio) →
      styleEq s t = false) := by
  constructor
  · intro l1 l2 hp hn
    exact styleEq_of_eq (applyWrites_perm hp hn Style.mkDefault)
  · intro s t hdiff
    cases hEq : styleEq s t with
    | false => rfl
    | true =>
      exfalso
      have hst : s = t := (styleEq_eq_true_iff s t).mp hEq
      subst hst
      rcases hdiff with ⟨i, hi⟩ | hd | hd | hd | hd | ⟨e, he⟩ | ⟨e, he⟩ | ⟨e, he⟩
        | ⟨e, he⟩ | ⟨g, hg⟩ | ⟨d, hdm⟩ | ⟨d, hdm⟩ | ⟨d, hdm⟩ | hd <;> simp_all

/-- C6 witness: flexGrow-then-margin and margin-then-flexGrow build equal
Styles, and a Style differing from the default only in flexGrow compares
unequal to it. -/
theorem style_build_determinism_witness :
    styleEq
      (applyWrites Style.mkDefault
        [StyleWrite.wflexGrow (some 1),
         StyleWrite.wmargin YGEdgeLeft (CompactValue.ofPoints 10)])
      (applyWrites Style.mkDefault
        [StyleWrite.wmargin YGEdgeLeft (CompactValue.ofPoints 10),
         StyleWrite.wflexGrow (some 1)]) = true ∧
    styleEq Style.mkDefault (Style.mkDefault.setFlexGrow (some 1)) = false :=
  ⟨style_build_determinism.1 _ _ (List.Perm.swap _ _ _) (by decide),
    style_build_determinism.2 Style.mkDefault (Style.mkDefault.setFlexGrow (some 1))
      (Or.inr (Or.inr (Or.inl (by decide))))⟩

end Yoga
